import Mathlib

/-!
Verification development for the demo-svhn-classifier repository.

The repository is a sequential command-line pipeline (src/main.py) with two
commands: `remote` (download test data and pretrained model bundles) and
`local` (download data, preprocess, train an MLP and a CNN with framework
callbacks, reload the best checkpoint and save the final models).

The embedding below models:
  * the observable effect trace of each command (downloads, loads, fits,
    checkpoint reloads, model saves), parameterized by an external world
    that decides which effectful stages succeed;
  * the dataset arrays and the preprocessing transforms;
  * the per-epoch semantics of the two framework callbacks configured in
    src/main.py (best-only checkpointing, early stopping with patience 3).
-/

/-- Local working directory constant from src/main.py (`LOCAL_DIR`). -/
def LOCAL_DIR : String := "/tmp/svhn"

/-- Archive host constant from src/main.py (`S3_URL_PREFIX`). -/
def S3_URL_BASE : String :=
  "http://grainpowder-archive.s3.amazonaws.com/github/demo-svhn-classifier"

/-- Train dataset URL constant from src/main.py. -/
def TRAIN_DATA_URL : String := "http://ufldl.stanford.edu/housenumbers/train_32x32.mat"

/-- Test dataset URL constant from src/main.py. -/
def TEST_DATA_URL : String := "http://ufldl.stanford.edu/housenumbers/test_32x32.mat"

/-- Train dataset file name constant from src/main.py. -/
def TRAIN_DATA_NAME : String := "train_data.mat"

/-- Test dataset file name constant from src/main.py. -/
def TEST_DATA_NAME : String := "test_data.mat"

/-- Modelled from the spec: the on-disk content of a dataset `.mat` file as
parsed by `preprocess.load_data` (the file `preprocess.py` is not under
src/).  The source format stores the sample index as the trailing axis, so
the pixel block has extents `H × W × C × N`, while `labels` is the label
vector of the same file. -/
structure RawFile where
  H : Nat
  W : Nat
  C : Nat
  N : Nat
  pix : Nat → Nat → Nat → Nat → ℚ
  labels : List Nat

/-- One observable effect of the pipeline in src/main.py. -/
inductive Event where
  | downloadData (url fname : String)
  | downloadPretrainedModel (urlBase archName : String)
  | unzipDownloadedModel (archName : String)
  | loadData (fname : String)
  | fitModel (archName : String) (inputShape : List Nat) (labels : List Nat)
      (batchSize epochs : Nat) (validationSplit : ℚ) (callbacks : List String)
  | loadWeights (path : String)
  | saveModel (path : String)
deriving DecidableEq

/-- Shape of the raw image block returned by `preprocess.load_data`
(samples on the trailing axis). -/
def rawShape (f : RawFile) : List Nat := [f.H, f.W, f.C, f.N]

/-- Modelled from the spec: the shape effect of `preprocess.reshape_data`
(the file `preprocess.py` is not under src/) — transposes the axes so that
the trailing sample axis becomes the leading one. -/
def reshapeShape (s : List Nat) : List Nat :=
  match s.getLast? with
  | none => []
  | some n => n :: s.dropLast

/-- Modelled from the spec: the shape effect of
`preprocess.convert_to_grayscale` (the file `preprocess.py` is not under
src/) — collapses the trailing channel axis down to one channel, keeping
the spatial dimensions. -/
def grayShape (s : List Nat) : List Nat := s.dropLast ++ [1]

/-- Shape effect of `train_data[:, :, :, np.newaxis]` in src/main.py:
inserts a size-one axis at position 3. -/
def newaxisShape (s : List Nat) : List Nat := s.take 3 ++ [1] ++ s.drop 3

/-- Per-sample shape (`train_data[0].shape`): drop the leading sample
axis. -/
def sampleShape (s : List Nat) : List Nat := s.tail

/-- The per-sample input shape handed to `models.define_model_mlp` in
src/main.py: the grayscale-converted, sample-major data. -/
def mlpInputShape (f : RawFile) : List Nat :=
  sampleShape (grayShape (reshapeShape (rawShape f)))

/-- The per-sample input shape handed to `models.define_model_cnn` in
src/main.py: the grayscale data with an extra trailing singleton axis. -/
def cnnInputShape (f : RawFile) : List Nat :=
  sampleShape (newaxisShape (grayShape (reshapeShape (rawShape f))))

/-- Callback list passed to the MLP fit call in src/main.py line 97. -/
def mlpCallbacks : List String := ["early_stopping", "mlp_checkpoint", "mlp_records"]

/-- Callback list passed to the CNN fit call in src/main.py line 111. -/
def cnnCallbacks : List String := ["early_stopping", "cnn_checkpoint", "cnn_records"]

/-- The external world a command run interacts with: which effectful stage
succeeds, and the contents of the two remote dataset files.  The pipeline
itself has no error handling, so each stage is modelled as an
externally-decided success bit. -/
structure World where
  dlTrainOk : Bool
  dlTestOk : Bool
  dlMlpOk : Bool
  dlCnnOk : Bool
  unzipMlpOk : Bool
  unzipCnnOk : Bool
  loadTrainOk : Bool
  fitMlpOk : Bool
  fitCnnOk : Bool
  loadCkptMlpOk : Bool
  saveMlpOk : Bool
  loadCkptCnnOk : Bool
  saveCnnOk : Bool
  trainFile : RawFile
  testFileBytes : List Nat

/-- The effect trace of a successful `local` run on train file `f`,
following src/main.py lines 47-118 top to bottom. -/
def localTrace (f : RawFile) : List Event :=
  [ Event.downloadData TRAIN_DATA_URL TRAIN_DATA_NAME,
    Event.downloadData TEST_DATA_URL TEST_DATA_NAME,
    Event.loadData TRAIN_DATA_NAME,
    Event.fitModel "mlp" (mlpInputShape f) f.labels 64 30 (15/100) mlpCallbacks,
    Event.fitModel "cnn" (cnnInputShape f) f.labels 64 30 (15/100) cnnCallbacks,
    Event.loadWeights (LOCAL_DIR ++ "/mlp/ckpt"),
    Event.saveModel (LOCAL_DIR ++ "/mlp/model"),
    Event.loadWeights (LOCAL_DIR ++ "/cnn/ckpt"),
    Event.saveModel (LOCAL_DIR ++ "/cnn/model") ]

/-- The `remote` command (src/main.py `load_from_remote`, lines 33-44):
download the test dataset file, download the "mlp" and "cnn" pretrained
bundles from the archive host, then unzip each.  Any stage failure aborts
the run with that stage's error; nothing is caught or retried. -/
def load_from_remote (w : World) : Except String (List Event) :=
  if w.dlTestOk then
    if w.dlMlpOk then
      if w.dlCnnOk then
        if w.unzipMlpOk then
          if w.unzipCnnOk then
            Except.ok
              [ Event.downloadData TEST_DATA_URL TEST_DATA_NAME,
                Event.downloadPretrainedModel S3_URL_BASE "mlp",
                Event.downloadPretrainedModel S3_URL_BASE "cnn",
                Event.unzipDownloadedModel "mlp",
                Event.unzipDownloadedModel "cnn" ]
          else Except.error "ArchiveError: unzip cnn bundle"
        else Except.error "ArchiveError: unzip mlp bundle"
      else Except.error "NetworkError: download cnn bundle"
    else Except.error "NetworkError: download mlp bundle"
  else Except.error "NetworkError: download test data"

/-- The `local` command (src/main.py `train_in_local`, lines 47-118):
download train and test data, load and preprocess the train data, fit the
MLP then the CNN, reload each best checkpoint and save each final model.
Any stage failure aborts the run with that stage's error; nothing is
caught or retried. -/
def train_in_local (w : World) : Except String (List Event) :=
  if w.dlTrainOk then
    if w.dlTestOk then
      if w.loadTrainOk then
        if w.fitMlpOk then
          if w.fitCnnOk then
            if w.loadCkptMlpOk then
              if w.saveMlpOk then
                if w.loadCkptCnnOk then
                  if w.saveCnnOk then Except.ok (localTrace w.trainFile)
                  else Except.error "FileSystemError: save cnn model"
                else Except.error "FileSystemError: load cnn checkpoint"
              else Except.error "FileSystemError: save mlp model"
            else Except.error "FileSystemError: load mlp checkpoint"
          else Except.error "TrainingError: cnn fit"
        else Except.error "TrainingError: mlp fit"
      else Except.error "ParseError: load train data"
    else Except.error "NetworkError: download test data"
  else Except.error "NetworkError: download train data"

/-- Modelled from the spec: the CLI process exit status — 0 when the
command ran to completion, nonzero when a failure propagated uncaught to
the entry point. -/
def exitCode : Except String (List Event) → Nat
  | Except.ok _ => 0
  | Except.error _ => 1

/-- A concrete dataset file used to instantiate theorems: 2 samples of
2×2 images with 3 channels. -/
def fEx : RawFile :=
  { H := 2, W := 2, C := 3, N := 2, pix := fun _ _ _ _ => 0, labels := [3, 7] }

/-- A world in which every stage succeeds. -/
def wAll : World :=
  { dlTrainOk := true, dlTestOk := true, dlMlpOk := true, dlCnnOk := true,
    unzipMlpOk := true, unzipCnnOk := true, loadTrainOk := true,
    fitMlpOk := true, fitCnnOk := true, loadCkptMlpOk := true,
    saveMlpOk := true, loadCkptCnnOk := true, saveCnnOk := true,
    trainFile := fEx, testFileBytes := [] }

/-- A 4-dimensional numeric array: four extents and the entry at each
index quadruple (entries outside the extents are irrelevant padding). -/
structure Arr4 where
  d1 : Nat
  d2 : Nat
  d3 : Nat
  d4 : Nat
  item : Nat → Nat → Nat → Nat → ℚ

/-- Modelled from the spec: `preprocess.load_data` (the file
`preprocess.py` is not under src/) parses a dataset file into the image
block (samples on the trailing axis) and the label vector. -/
def load_data (f : RawFile) : Arr4 × List Nat :=
  (⟨f.H, f.W, f.C, f.N, f.pix⟩, f.labels)

/-- Modelled from the spec: `preprocess.reshape_data` (the file
`preprocess.py` is not under src/) transposes the axes so the trailing
sample axis becomes the leading one. -/
def reshape_data (a : Arr4) : Arr4 :=
  ⟨a.d4, a.d1, a.d2, a.d3, fun i j k l => a.item j k l i⟩

/-- Modelled from the spec: `preprocess.convert_to_grayscale` (the file
`preprocess.py` is not under src/) averages the trailing channel axis
down to one channel, preserving the other dimensions. -/
def convert_to_grayscale (a : Arr4) : Arr4 :=
  ⟨a.d1, a.d2, a.d3, 1,
   fun i j k _ => (Finset.range a.d4).sum (fun c => a.item i j k c) / (a.d4 : ℚ)⟩

/-- Extensional array equality: same extents and same entries at every
in-bounds index. -/
def arrEquiv (a b : Arr4) : Prop :=
  a.d1 = b.d1 ∧ a.d2 = b.d2 ∧ a.d3 = b.d3 ∧ a.d4 = b.d4 ∧
  ∀ i < a.d1, ∀ j < a.d2, ∀ k < a.d3, ∀ l < a.d4, a.item i j k l = b.item i j k l

/-- A concrete single-channel array: 2 samples of 2×2 grayscale images. -/
def aEx : Arr4 := ⟨2, 2, 2, 1, fun i j k _ => (i + j + k : ℚ)⟩

/-- Configuration record of `tf.keras.callbacks.ModelCheckpoint` as
instantiated in src/main.py. -/
structure CkptConfig where
  filepath : String
  save_weights_only : Bool
  save_best_only : Bool
  save_freq : String
  monitor : String

/-- The MLP checkpoint callback configuration, src/main.py lines 61-68. -/
def mlp_checkpoint : CkptConfig :=
  ⟨LOCAL_DIR ++ "/mlp/ckpt", true, true, "epoch", "val_accuracy"⟩

/-- The CNN checkpoint callback configuration, src/main.py lines 72-79. -/
def cnn_checkpoint : CkptConfig :=
  ⟨LOCAL_DIR ++ "/cnn/ckpt", true, true, "epoch", "val_accuracy"⟩

/-- Configuration record of `tf.keras.callbacks.EarlyStopping` as
instantiated in src/main.py; `restore_best_weights` is the framework
default `false`, left unset at the call site. -/
structure ESConfig where
  monitor : String
  patience : Nat
  mode : String
  restore_best_weights : Bool

/-- The early stopping callback configuration, src/main.py lines 83-85. -/
def early_stopping : ESConfig := ⟨"val_accuracy", 3, "max", false⟩

/-- Modelled from the spec: strict improvement of a monitored value over
the best value seen so far (max mode, framework semantics of the
callbacks configured in src/main.py; the framework is an external
collaborator whose behavior the spec describes).  `none` is the initial
"nothing seen yet" best. -/
def improves (acc : ℚ) : Option ℚ → Bool
  | none => true
  | some b => decide (b < acc)

/-- State of the best-only checkpoint callback: best monitored value so
far, and the epoch index whose weights are currently stored on disk. -/
structure CkptState where
  best : Option ℚ
  saved : Option Nat
deriving DecidableEq

/-- Modelled from the spec: one epoch-end step of
`ModelCheckpoint(save_best_only=True, monitor="val_accuracy")` — the
stored weights are overwritten exactly when the epoch's validation
accuracy strictly improves on the best seen so far. -/
def ckptStep (epoch : Nat) (acc : ℚ) (s : CkptState) : CkptState :=
  if improves acc s.best then { best := some acc, saved := some epoch } else s

/-- Checkpoint state after the first `n` epochs of a run whose validation
accuracies are `a 0, a 1, ...`. -/
def runCkpt (a : Nat → ℚ) : Nat → CkptState
  | 0 => { best := none, saved := none }
  | n + 1 => ckptStep n (a n) (runCkpt a n)

/-- State of the early-stopping callback: best monitored value so far,
number of consecutive epochs without improvement, and whether it has
requested that training stop. -/
structure ESState where
  best : Option ℚ
  wait : Nat
  stop : Bool
deriving DecidableEq

/-- Modelled from the spec: one epoch-end step of
`EarlyStopping(monitor="val_accuracy", patience=3, mode="max")` — an
improving epoch resets the wait counter, a non-improving epoch increments
it, and the stop flag is raised once `patience` consecutive epochs fail
to improve. -/
def esStep (acc : ℚ) (s : ESState) : ESState :=
  if improves acc s.best then { best := some acc, wait := 0, stop := s.stop }
  else { best := s.best, wait := s.wait + 1,
         stop := s.stop || decide (early_stopping.patience ≤ s.wait + 1) }

/-- Early-stopping state after the first `n` epochs of a run whose
validation accuracies are `a 0, a 1, ...`. -/
def runES (a : Nat → ℚ) : Nat → ESState
  | 0 => { best := none, wait := 0, stop := false }
  | n + 1 => esStep (a n) (runES a n)

/-- Modelled from the spec: the framework fit loop of src/main.py — run
epochs in order starting at `e` with `fuel` epochs remaining until the
epoch limit, threading the early-stopping state, and return the total
number of epochs run (the loop breaks right after the epoch at which the
stop flag is raised). -/
def fitAux (a : Nat → ℚ) : Nat → Nat → ESState → Nat
  | 0, e, _ => e
  | fuel + 1, e, s =>
    if (esStep (a e) s).stop then e + 1 else fitAux a fuel (e + 1) (esStep (a e) s)

/-- Number of epochs a fit call with `epochs=30` actually runs when the
per-epoch validation accuracies are `a 0, a 1, ...`. -/
def epochsRun (a : Nat → ℚ) : Nat := fitAux a 30 0 { best := none, wait := 0, stop := false }

/-- Epoch `i` fails to improve: its validation accuracy does not strictly
exceed the best value seen at prior epochs. -/
def nonImp (a : Nat → ℚ) (i : Nat) : Prop :=
  improves (a i) ((runES a i).best) = false

/-- The spec's scenario: validation accuracies
0.10, 0.50, 0.49, 0.48, 0.47 (and 0 afterwards), scaled to percent so
that concrete runs evaluate inside the kernel; only the ordering of the
values matters to the callbacks. -/
def accsA : Nat → ℚ :=
  fun i => List.getD [10, 50, 49, 48, 47] i 0

/-- A boundary sequence: accuracies strictly increase up to epoch 26 and
stay flat from epoch 27 on, so the first three consecutive non-improving
epochs are epochs 27, 28, 29 — the last three of the 30-epoch budget. -/
def accsB : Nat → ℚ := fun i => if i < 27 then (i : ℚ) else 26

theorem train_in_local_ok (w : World) (tr : List Event)
    (h : train_in_local w = Except.ok tr) : tr = localTrace w.trainFile := by
  unfold train_in_local at h
  split_ifs at h
  exact (Except.ok.injEq _ _ ▸ h).symm

theorem load_from_remote_ok (w : World) (tr : List Event)
    (h : load_from_remote w = Except.ok tr) :
    tr = [ Event.downloadData TEST_DATA_URL TEST_DATA_NAME,
           Event.downloadPretrainedModel S3_URL_BASE "mlp",
           Event.downloadPretrainedModel S3_URL_BASE "cnn",
           Event.unzipDownloadedModel "mlp",
           Event.unzipDownloadedModel "cnn" ] := by
  unfold load_from_remote at h
  split_ifs at h
  exact (Except.ok.injEq _ _ ▸ h).symm

/-- Claim C3: after both fit loops finish, the `local` command reloads the
best checkpointed weights into each model and writes the final serialized
models under `<workdir>/mlp/model` and `<workdir>/cnn/model`, in that
order, for every run that reaches this stage: a successful run's trace is
exactly the download, load, two fits, and then the reload/save pairs for
the MLP followed by the CNN. -/
theorem local_reload_and_save (w : World) (tr : List Event)
    (h : train_in_local w = Except.ok tr) :
    tr = [ Event.downloadData TRAIN_DATA_URL TRAIN_DATA_NAME,
           Event.downloadData TEST_DATA_URL TEST_DATA_NAME,
           Event.loadData TRAIN_DATA_NAME,
           Event.fitModel "mlp" (mlpInputShape w.trainFile) w.trainFile.labels
             64 30 (15/100) mlpCallbacks,
           Event.fitModel "cnn" (cnnInputShape w.trainFile) w.trainFile.labels
             64 30 (15/100) cnnCallbacks,
           Event.loadWeights (LOCAL_DIR ++ "/mlp/ckpt"),
           Event.saveModel (LOCAL_DIR ++ "/mlp/model"),
           Event.loadWeights (LOCAL_DIR ++ "/cnn/ckpt"),
           Event.saveModel (LOCAL_DIR ++ "/cnn/model") ] :=
  train_in_local_ok w tr h

/-- Witness for C3: in the all-success world the hypothesis holds and the
trace has the claimed form. -/
theorem local_reload_and_save_witness :
    train_in_local wAll = Except.ok (localTrace fEx) ∧
    localTrace fEx =
      [ Event.downloadData TRAIN_DATA_URL TRAIN_DATA_NAME,
        Event.downloadData TEST_DATA_URL TEST_DATA_NAME,
        Event.loadData TRAIN_DATA_NAME,
        Event.fitModel "mlp" (mlpInputShape fEx) fEx.labels 64 30 (15/100) mlpCallbacks,
        Event.fitModel "cnn" (cnnInputShape fEx) fEx.labels 64 30 (15/100) cnnCallbacks,
        Event.loadWeights (LOCAL_DIR ++ "/mlp/ckpt"),
        Event.saveModel (LOCAL_DIR ++ "/mlp/model"),
        Event.loadWeights (LOCAL_DIR ++ "/cnn/ckpt"),
        Event.saveModel (LOCAL_DIR ++ "/cnn/model") ] :=
  ⟨rfl, local_reload_and_save wAll (localTrace fEx) rfl⟩

/-- Claim C4: every fit invocation of the `local` command uses batch size
64, epoch limit 30 and a 15% validation split; both architectures' fit
calls carry exactly these values, which do not depend on any input to the
command. -/
theorem fixed_hyperparameters (w : World) (tr : List Event)
    (h : train_in_local w = Except.ok tr) :
    (∀ arch shape lbls bs ep vs cbs,
        Event.fitModel arch shape lbls bs ep vs cbs ∈ tr →
        bs = 64 ∧ ep = 30 ∧ vs = 15/100) ∧
    Event.fitModel "mlp" (mlpInputShape w.trainFile) w.trainFile.labels
      64 30 (15/100) mlpCallbacks ∈ tr ∧
    Event.fitModel "cnn" (cnnInputShape w.trainFile) w.trainFile.labels
      64 30 (15/100) cnnCallbacks ∈ tr := by
  obtain rfl := train_in_local_ok w tr h
  refine ⟨?_, by simp [localTrace], by simp [localTrace]⟩
  intro arch shape lbls bs ep vs cbs hm
  simp only [localTrace, List.mem_cons, List.not_mem_nil, or_false] at hm
  rcases hm with h1 | h1 | h1 | h1 | h1 | h1 | h1 | h1 | h1 <;> simp_all

/-- Witness for C4: in the all-success world the hypothesis holds and the
fixed hyperparameters are observed. -/
theorem fixed_hyperparameters_witness :
    train_in_local wAll = Except.ok (localTrace fEx) ∧
    Event.fitModel "mlp" (mlpInputShape fEx) fEx.labels
      64 30 (15/100) mlpCallbacks ∈ localTrace fEx :=
  ⟨rfl, (fixed_hyperparameters wAll (localTrace fEx) rfl).2.1⟩

/-- Claim C8: a successful `remote` run performs exactly, in order: the
test-data download, the "mlp" and "cnn" bundle downloads from the fixed
archive host, and the two bundle extractions; it fits no model and the
only dataset file it downloads is the test file. -/
theorem remote_steps (w : World) (tr : List Event)
    (h : load_from_remote w = Except.ok tr) :
    tr = [ Event.downloadData TEST_DATA_URL TEST_DATA_NAME,
           Event.downloadPretrainedModel S3_URL_BASE "mlp",
           Event.downloadPretrainedModel S3_URL_BASE "cnn",
           Event.unzipDownloadedModel "mlp",
           Event.unzipDownloadedModel "cnn" ] ∧
    (∀ arch shape lbls bs ep vs cbs,
        Event.fitModel arch shape lbls bs ep vs cbs ∈ tr → False) ∧
    (∀ url fname, Event.downloadData url fname ∈ tr →
        url = TEST_DATA_URL ∧ fname = TEST_DATA_NAME) := by
  obtain rfl := load_from_remote_ok w tr h
  refine ⟨rfl, ?_, ?_⟩
  · intro arch shape lbls bs ep vs cbs hm
    simp at hm
  · intro url fname hm
    simp only [List.mem_cons, List.not_mem_nil, or_false] at hm
    rcases hm with h1 | h1 | h1 | h1 | h1 <;> simp_all

/-- Witness for C8: in the all-success world the hypothesis holds and the
trace is the claimed five-step sequence. -/
theorem remote_steps_witness :
    (∃ tr, load_from_remote wAll = Except.ok tr) ∧
    (∀ url fname,
        Event.downloadData url fname ∈
          [ Event.downloadData TEST_DATA_URL TEST_DATA_NAME,
            Event.downloadPretrainedModel S3_URL_BASE "mlp",
            Event.downloadPretrainedModel S3_URL_BASE "cnn",
            Event.unzipDownloadedModel "mlp",
            Event.unzipDownloadedModel "cnn" ] →
        url = TEST_DATA_URL ∧ fname = TEST_DATA_NAME) :=
  ⟨⟨_, rfl⟩, (remote_steps wAll _ rfl).2.2⟩

/-- Claim C9: the CNN fit call of the `local` command receives the
grayscale data with an extra trailing singleton channel axis — its
per-sample input shape is the MLP's shape extended by a dimension of
size 1, and the MLP's shape is the grayscale-converted sample shape (not
the raw multi-channel one) — and every fit call receives the identical
untransformed labels array returned by the load step. -/
theorem cnn_grayscale_channel (w : World) (tr : List Event)
    (h : train_in_local w = Except.ok tr) :
    cnnInputShape w.trainFile = mlpInputShape w.trainFile ++ [1] ∧
    mlpInputShape w.trainFile =
      sampleShape (grayShape (reshapeShape (rawShape w.trainFile))) ∧
    Event.fitModel "cnn" (cnnInputShape w.trainFile) w.trainFile.labels
      64 30 (15/100) cnnCallbacks ∈ tr ∧
    (∀ arch shape lbls bs ep vs cbs,
        Event.fitModel arch shape lbls bs ep vs cbs ∈ tr →
        lbls = w.trainFile.labels) := by
  obtain rfl := train_in_local_ok w tr h
  refine ⟨?_, rfl, by simp [localTrace], ?_⟩
  · simp [cnnInputShape, mlpInputShape, sampleShape, newaxisShape, grayShape,
      reshapeShape, rawShape]
  · intro arch shape lbls bs ep vs cbs hm
    simp only [localTrace, List.mem_cons, List.not_mem_nil, or_false] at hm
    rcases hm with h1 | h1 | h1 | h1 | h1 | h1 | h1 | h1 | h1 <;> simp_all

/-- Witness for C9: in the all-success world the hypothesis holds; the
CNN input shape is the MLP shape plus a singleton channel axis. -/
theorem cnn_grayscale_channel_witness :
    train_in_local wAll = Except.ok (localTrace fEx) ∧
    cnnInputShape fEx = mlpInputShape fEx ++ [1] :=
  ⟨rfl, (cnn_grayscale_channel wAll (localTrace fEx) rfl).1⟩

/-- Claim C10: the `local` command downloads the test dataset file but
never loads it — its result does not depend on the test file's contents
(noninterference), the test download appears in every successful trace,
and the only load event is for the train dataset file. -/
theorem test_content_noninterference (w : World) (c : List Nat) :
    train_in_local { w with testFileBytes := c } = train_in_local w ∧
    (∀ tr, train_in_local w = Except.ok tr →
      Event.downloadData TEST_DATA_URL TEST_DATA_NAME ∈ tr ∧
      (∀ fname, Event.loadData fname ∈ tr → fname = TRAIN_DATA_NAME)) := by
  refine ⟨rfl, ?_⟩
  intro tr h
  obtain rfl := train_in_local_ok w tr h
  refine ⟨by simp [localTrace], ?_⟩
  intro fname hm
  simp only [localTrace, List.mem_cons, List.not_mem_nil, or_false] at hm
  rcases hm with h1 | h1 | h1 | h1 | h1 | h1 | h1 | h1 | h1 <;> simp_all

/-- Witness for C10: at the all-success world, replacing the test file
contents leaves the run unchanged, and the successful trace loads only
the train file. -/
theorem test_content_noninterference_witness :
    train_in_local { wAll with testFileBytes := [9, 9, 9] } = train_in_local wAll ∧
    (∀ fname, Event.loadData fname ∈ localTrace fEx → fname = TRAIN_DATA_NAME) :=
  ⟨(test_content_noninterference wAll [9, 9, 9]).1,
   fun fname hm =>
     ((test_content_noninterference wAll [9, 9, 9]).2 (localTrace fEx) rfl).2 fname hm⟩

/-- Claim C7: neither command catches or retries errors — the process
exits with status 0 exactly when every stage of the invoked command
succeeds, and any stage failure yields a nonzero exit status. -/
theorem no_error_handling (w : World) :
    (exitCode (train_in_local w) = 0 ↔
      (w.dlTrainOk = true ∧ w.dlTestOk = true ∧ w.loadTrainOk = true ∧
       w.fitMlpOk = true ∧ w.fitCnnOk = true ∧ w.loadCkptMlpOk = true ∧
       w.saveMlpOk = true ∧ w.loadCkptCnnOk = true ∧ w.saveCnnOk = true)) ∧
    (exitCode (load_from_remote w) = 0 ↔
      (w.dlTestOk = true ∧ w.dlMlpOk = true ∧ w.dlCnnOk = true ∧
       w.unzipMlpOk = true ∧ w.unzipCnnOk = true)) := by
  constructor
  · unfold train_in_local
    split_ifs <;> simp_all [exitCode]
  · unfold load_from_remote
    split_ifs <;> simp_all [exitCode]

/-- Witness for C7: the all-success world exits with status 0 on both
commands. -/
theorem no_error_handling_witness :
    exitCode (train_in_local wAll) = 0 ∧ exitCode (load_from_remote wAll) = 0 :=
  ⟨(no_error_handling wAll).1.mpr (by decide),
   (no_error_handling wAll).2.mpr (by decide)⟩

/-- Claim C5: for every valid dataset file (one whose label count matches
the trailing sample extent), loading it and applying the reshape
transform yields an image array whose leading dimension equals the number
of entries in the labels array returned by the same load. -/
theorem load_reshape_shape (f : RawFile) (h : f.labels.length = f.N) :
    (reshape_data (load_data f).1).d1 = (load_data f).2.length := by
  simp [load_data, reshape_data, h]

/-- Witness for C5: the concrete dataset file satisfies the validity
hypothesis and the round-trip shape invariant. -/
theorem load_reshape_shape_witness :
    fEx.labels.length = fEx.N ∧
    (reshape_data (load_data fEx).1).d1 = (load_data fEx).2.length :=
  ⟨rfl, load_reshape_shape fEx rfl⟩

/-- Claim C6: the grayscale conversion preserves the spatial dimensions of
every input, and on an input that already has a single channel it returns
the array unchanged. -/
theorem grayscale_noop (a : Arr4) :
    ((convert_to_grayscale a).d2 = a.d2 ∧ (convert_to_grayscale a).d3 = a.d3) ∧
    (a.d4 = 1 → arrEquiv (convert_to_grayscale a) a) := by
  refine ⟨⟨rfl, rfl⟩, ?_⟩
  intro h4
  refine ⟨rfl, rfl, rfl, h4.symm, ?_⟩
  intro i _ j _ k _ l hl
  have hl1 : l = 0 := by
    have : l < 1 := hl
    omega
  subst hl1
  simp [convert_to_grayscale, h4]

/-- Witness for C6: a concrete single-channel array is left unchanged and
keeps its spatial dimensions. -/
theorem grayscale_noop_witness :
    ((convert_to_grayscale aEx).d2 = aEx.d2 ∧ (convert_to_grayscale aEx).d3 = aEx.d3) ∧
    arrEquiv (convert_to_grayscale aEx) aEx :=
  ⟨(grayscale_noop aEx).1, (grayscale_noop aEx).2 rfl⟩

theorem runCkpt_best_spec (a : Nat → ℚ) :
    ∀ n, 0 < n →
      ∃ m, m < n ∧ (runCkpt a n).best = some (a m) ∧ ∀ j, j < n → a j ≤ a m := by
  intro n
  induction n with
  | zero => intro h; omega
  | succ n ih =>
    intro _
    by_cases hn : 0 < n
    · obtain ⟨m, hm, hbest, hmax⟩ := ih hn
      by_cases himp : a m < a n
      · refine ⟨n, by omega, ?_, ?_⟩
        · simp [runCkpt, ckptStep, improves, hbest, himp]
        · intro j hj
          rcases Nat.lt_succ_iff_lt_or_eq.mp hj with h | h
          · exact le_trans (hmax j h) (le_of_lt himp)
          · subst h; exact le_refl _
      · refine ⟨m, by omega, ?_, ?_⟩
        · simp [runCkpt, ckptStep, improves, hbest, himp]
        · intro j hj
          rcases Nat.lt_succ_iff_lt_or_eq.mp hj with h | h
          · exact hmax j h
          · subst h; exact le_of_not_lt himp
    · have hn0 : n = 0 := by omega
      subst hn0
      refine ⟨0, by omega, ?_, ?_⟩
      · simp [runCkpt, ckptStep, improves]
      · intro j hj
        have hj0 : j = 0 := by omega
        subst hj0; exact le_refl _

/-- Claim C1: both architectures' checkpoint callbacks are configured as
best-only monitors of validation accuracy, and under that semantics the
stored weights at an epoch's end are overwritten (with that epoch's
weights) exactly when the epoch's validation accuracy strictly exceeds
every prior epoch's; otherwise the checkpoint state is unchanged. -/
theorem checkpoint_monotonic_best (a : Nat → ℚ) (i : Nat) :
    mlp_checkpoint.save_best_only = true ∧
    cnn_checkpoint.save_best_only = true ∧
    mlp_checkpoint.monitor = "val_accuracy" ∧
    cnn_checkpoint.monitor = "val_accuracy" ∧
    ((∀ j, j < i → a j < a i) →
      runCkpt a (i + 1) = { best := some (a i), saved := some i }) ∧
    ((¬ ∀ j, j < i → a j < a i) → runCkpt a (i + 1) = runCkpt a i) := by
  refine ⟨rfl, rfl, rfl, rfl, ?_, ?_⟩
  · intro hall
    by_cases hi : 0 < i
    · obtain ⟨m, hm, hbest, _⟩ := runCkpt_best_spec a i hi
      have hlt : a m < a i := hall m hm
      simp [runCkpt, ckptStep, improves, hbest, hlt]
    · have hi0 : i = 0 := by omega
      subst hi0
      simp [runCkpt, ckptStep, improves]
  · intro hnall
    push_neg at hnall
    obtain ⟨j, hj, hge⟩ := hnall
    have hi : 0 < i := by omega
    obtain ⟨m, hm, hbest, hmax⟩ := runCkpt_best_spec a i hi
    have hnlt : ¬ a m < a i := not_lt.mpr (le_trans hge (hmax j hj))
    simp [runCkpt, ckptStep, improves, hbest, hnlt]

/-- Witness for C1: on the spec's accuracy scenario, epoch 1 improves on
all prior epochs and overwrites the checkpoint, while epoch 2 does not
and leaves it unchanged. -/
theorem checkpoint_monotonic_best_witness :
    (∀ j, j < 1 → accsA j < accsA 1) ∧
    runCkpt accsA 2 = { best := some (accsA 1), saved := some 1 } ∧
    (¬ ∀ j, j < 2 → accsA j < accsA 2) ∧
    runCkpt accsA 3 = runCkpt accsA 2 :=
  ⟨by decide, (checkpoint_monotonic_best accsA 1).2.2.2.2.1 (by decide),
   by decide, (checkpoint_monotonic_best accsA 2).2.2.2.2.2 (by decide)⟩

theorem runES_best_spec (a : Nat → ℚ) :
    ∀ n, 0 < n →
      ∃ m, m < n ∧ (runES a n).best = some (a m) ∧ ∀ j, j < n → a j ≤ a m := by
  intro n
  induction n with
  | zero => intro h; omega
  | succ n ih =>
    intro _
    by_cases hn : 0 < n
    · obtain ⟨m, hm, hbest, hmax⟩ := ih hn
      by_cases himp : a m < a n
      · refine ⟨n, by omega, ?_, ?_⟩
        · simp [runES, esStep, improves, hbest, himp]
        · intro j hj
          rcases Nat.lt_succ_iff_lt_or_eq.mp hj with h | h
          · exact le_trans (hmax j h) (le_of_lt himp)
          · subst h; exact le_refl _
      · refine ⟨m, by omega, ?_, ?_⟩
        · simp [runES, esStep, improves, hbest, himp]
        · intro j hj
          rcases Nat.lt_succ_iff_lt_or_eq.mp hj with h | h
          · exact hmax j h
          · subst h; exact le_of_not_lt himp
    · have hn0 : n = 0 := by omega
      subst hn0
      refine ⟨0, by omega, ?_, ?_⟩
      · simp [runES, esStep, improves]
      · intro j hj
        have hj0 : j = 0 := by omega
        subst hj0; exact le_refl _

theorem runES_best_mono (a : Nat → ℚ) (n : Nat) (x : ℚ)
    (h : (runES a n).best = some x) :
    ∀ d, ∃ y, x ≤ y ∧ (runES a (n + d)).best = some y := by
  intro d
  induction d with
  | zero => exact ⟨x, le_refl x, h⟩
  | succ d ih =>
    obtain ⟨y, hxy, hy⟩ := ih
    by_cases himp : a (n + d) ≤ y
    · refine ⟨y, hxy, ?_⟩
      show (esStep (a (n + d)) (runES a (n + d))).best = some y
      have hnlt : ¬ y < a (n + d) := not_lt.mpr himp
      unfold esStep
      rw [hy]
      simp [improves, hnlt]
    · have hlt : y < a (n + d) := lt_of_not_le himp
      refine ⟨a (n + d), le_trans hxy (le_of_lt hlt), ?_⟩
      show (esStep (a (n + d)) (runES a (n + d))).best = some (a (n + d))
      unfold esStep
      rw [hy]
      simp [improves, hlt]

theorem runES_wait_le (a : Nat → ℚ) : ∀ n, (runES a n).wait ≤ n := by
  intro n
  induction n with
  | zero => exact Nat.le_refl 0
  | succ n ih =>
    show (esStep (a n) (runES a n)).wait ≤ n + 1
    unfold esStep
    split
    · exact Nat.zero_le _
    · exact Nat.succ_le_succ ih

theorem runES_wait_nonImp (a : Nat → ℚ) :
    ∀ n i, n - (runES a n).wait ≤ i → i < n → nonImp a i := by
  intro n
  induction n with
  | zero => intro i _ h; omega
  | succ n ih =>
    intro i h1 h2
    by_cases himp : improves (a n) ((runES a n).best) = true
    · have hw : (runES a (n + 1)).wait = 0 := by
        show (esStep (a n) (runES a n)).wait = 0
        unfold esStep
        simp [himp]
      rw [hw] at h1
      omega
    · have hbf : improves (a n) ((runES a n).best) = false := by
        simpa using himp
      have hw : (runES a (n + 1)).wait = (runES a n).wait + 1 := by
        show (esStep (a n) (runES a n)).wait = _
        unfold esStep
        simp [hbf]
      rw [hw] at h1
      rcases Nat.lt_succ_iff_lt_or_eq.mp h2 with h | h
      · exact ih i (by omega) h
      · subst h
        exact hbf

theorem runES_stop_flip (a : Nat → ℚ) (n : Nat)
    (h1 : (runES a (n + 1)).stop = true) (h0 : (runES a n).stop = false) :
    3 ≤ (runES a (n + 1)).wait := by
  by_cases himp : improves (a n) ((runES a n).best) = true
  · exfalso
    have heq : (runES a (n + 1)).stop = (runES a n).stop := by
      show (esStep (a n) (runES a n)).stop = _
      unfold esStep
      simp [himp]
    rw [heq, h0] at h1
    exact Bool.noConfusion h1
  · have hbf : improves (a n) ((runES a n).best) = false := by simpa using himp
    have hs : (runES a (n + 1)).stop =
        ((runES a n).stop || decide (early_stopping.patience ≤ (runES a n).wait + 1)) := by
      show (esStep (a n) (runES a n)).stop = _
      unfold esStep
      simp [hbf]
    have hw : (runES a (n + 1)).wait = (runES a n).wait + 1 := by
      show (esStep (a n) (runES a n)).wait = _
      unfold esStep
      simp [hbf]
    rw [hs, h0] at h1
    simp at h1
    rw [hw]
    simpa [early_stopping] using h1

theorem runES_stop_of_triple (a : Nat → ℚ) (k : Nat)
    (h0 : nonImp a k) (h1 : nonImp a (k + 1)) (h2 : nonImp a (k + 2)) :
    (runES a (k + 3)).stop = true := by
  unfold nonImp at h0 h1 h2
  have w1 : (runES a (k + 1)).wait = (runES a k).wait + 1 := by
    show (esStep (a k) (runES a k)).wait = _
    unfold esStep
    simp [h0]
  have w2 : (runES a (k + 2)).wait = (runES a (k + 1)).wait + 1 := by
    show (esStep (a (k + 1)) (runES a (k + 1))).wait = _
    unfold esStep
    simp [h1]
  have hs : (runES a (k + 3)).stop =
      ((runES a (k + 2)).stop || decide (early_stopping.patience ≤ (runES a (k + 2)).wait + 1)) := by
    show (esStep (a (k + 2)) (runES a (k + 2))).stop = _
    unfold esStep
    simp [h2]
  rw [hs]
  have hp : early_stopping.patience ≤ (runES a (k + 2)).wait + 1 := by
    simp only [early_stopping]
    omega
  simp [hp]

theorem fitAux_le (a : Nat → ℚ) : ∀ fuel e s, fitAux a fuel e s ≤ e + fuel := by
  intro fuel
  induction fuel with
  | zero => intro e s; exact Nat.le_add_right e 0
  | succ fuel ih =>
    intro e s
    unfold fitAux
    split
    · omega
    · have h := ih (e + 1) (esStep (a e) s)
      omega

theorem fitAux_early (a : Nat → ℚ) : ∀ fuel e,
    fitAux a fuel e (runES a e) < e + fuel →
    (runES a e).stop = false →
    ∃ n, fitAux a fuel e (runES a e) = n + 1 ∧
      (runES a (n + 1)).stop = true ∧ (runES a n).stop = false := by
  intro fuel
  induction fuel with
  | zero =>
    intro e h _
    unfold fitAux at h
    omega
  | succ fuel ih =>
    intro e h he
    have hdef : fitAux a (fuel + 1) e (runES a e) =
        if (runES a (e + 1)).stop = true then e + 1
        else fitAux a fuel (e + 1) (runES a (e + 1)) := rfl
    by_cases hs : (runES a (e + 1)).stop = true
    · refine ⟨e, ?_, hs, he⟩
      rw [hdef, hs]
      simp
    · have hf : (runES a (e + 1)).stop = false := by simpa using hs
      have hrw : fitAux a (fuel + 1) e (runES a e) =
          fitAux a fuel (e + 1) (runES a (e + 1)) := by
        rw [hdef, hf]
        simp
      rw [hrw] at h ⊢
      exact ih (e + 1) (by omega) hf

theorem fitAux_le_stop (a : Nat → ℚ) : ∀ fuel e m,
    e < m → m ≤ e + fuel → (runES a m).stop = true →
    fitAux a fuel e (runES a e) ≤ m := by
  intro fuel
  induction fuel with
  | zero => intro e m h1 h2 _; omega
  | succ fuel ih =>
    intro e m h1 h2 h3
    have hdef : fitAux a (fuel + 1) e (runES a e) =
        if (runES a (e + 1)).stop = true then e + 1
        else fitAux a fuel (e + 1) (runES a (e + 1)) := rfl
    by_cases hs : (runES a (e + 1)).stop = true
    · have heq : fitAux a (fuel + 1) e (runES a e) = e + 1 := by
        rw [hdef, hs]
        simp
      omega
    · have hf : (runES a (e + 1)).stop = false := by simpa using hs
      have hne : m ≠ e + 1 := by
        intro hh
        rw [hh] at h3
        rw [h3] at hf
        exact Bool.noConfusion hf
      have hrw : fitAux a (fuel + 1) e (runES a e) =
          fitAux a fuel (e + 1) (runES a (e + 1)) := by
        rw [hdef, hf]
        simp
      rw [hrw]
      exact ih (e + 1) m (by omega) (by omega) h3

/-- Claim C2 (amended): a fit loop with 30 epochs and the configured
early stopper halts before the 30-epoch limit exactly when three
consecutive epochs fail to improve on the running best with the third
one occurring strictly before the final epoch; the run never continues
more than 3 epochs past the epoch achieving its best validation
accuracy; and the early-stopping callback restores no weights. -/
theorem early_stopping_patience (a : Nat → ℚ) :
    (epochsRun a < 30 ↔
      ∃ k, k + 2 ≤ 28 ∧ nonImp a k ∧ nonImp a (k + 1) ∧ nonImp a (k + 2)) ∧
    (∀ b, b < epochsRun a → (∀ j, j < epochsRun a → a j ≤ a b) →
      (∀ j, j < b → a j < a b) → epochsRun a ≤ b + 4) ∧
    early_stopping.restore_best_weights = false := by
  have hrun : epochsRun a = fitAux a 30 0 (runES a 0) := rfl
  refine ⟨⟨?_, ?_⟩, ?_, rfl⟩
  · intro hlt
    rw [hrun] at hlt
    obtain ⟨n, heq, hflip, hprev⟩ := fitAux_early a 30 0 (by omega) rfl
    have hw3 : 3 ≤ (runES a (n + 1)).wait := runES_stop_flip a n hflip hprev
    have hwle : (runES a (n + 1)).wait ≤ n + 1 := runES_wait_le a (n + 1)
    have hn2 : 2 ≤ n := by omega
    refine ⟨n - 2, by omega, ?_, ?_, ?_⟩
    · exact runES_wait_nonImp a (n + 1) (n - 2) (by omega) (by omega)
    · exact runES_wait_nonImp a (n + 1) (n - 2 + 1) (by omega) (by omega)
    · exact runES_wait_nonImp a (n + 1) (n - 2 + 2) (by omega) (by omega)
  · rintro ⟨k, hk, h0, h1, h2⟩
    have hstop : (runES a (k + 3)).stop = true := runES_stop_of_triple a k h0 h1 h2
    rw [hrun]
    have hle := fitAux_le_stop a 30 0 (k + 3) (by omega) (by omega) hstop
    omega
  · intro b hb hmax hfirst
    by_cases hcase : epochsRun a ≤ b + 4
    · exact hcase
    · have hgt : b + 4 < epochsRun a := by omega
      have hle30 : epochsRun a ≤ 30 := by
        rw [hrun]; exact fitAux_le a 30 0 (runES a 0)
      have himpb : improves (a b) ((runES a b).best) = true := by
        by_cases hb0 : 0 < b
        · obtain ⟨m, hm, hbest, _⟩ := runES_best_spec a b hb0
          rw [hbest]
          simp only [improves, decide_eq_true_eq]
          exact hfirst m hm
        · have hb1 : b = 0 := by omega
          subst hb1
          rfl
      have hbset : (runES a (b + 1)).best = some (a b) := by
        show (esStep (a b) (runES a b)).best = some (a b)
        unfold esStep
        simp [himpb]
      have hni : ∀ d, d < 3 → nonImp a (b + 1 + d) := by
        intro d hd
        obtain ⟨y, hy1, hy2⟩ := runES_best_mono a (b + 1) (a b) hbset d
        unfold nonImp
        rw [hy2]
        simp only [improves, decide_eq_false_iff_not, not_lt]
        exact le_trans (hmax (b + 1 + d) (by omega)) hy1
      have hstop : (runES a (b + 1 + 3)).stop = true :=
        runES_stop_of_triple a (b + 1) (hni 0 (by omega)) (hni 1 (by omega))
          (hni 2 (by omega))
      have hstop4 : (runES a (b + 4)).stop = true := by
        have h44 : b + 1 + 3 = b + 4 := by omega
        rw [h44] at hstop
        exact hstop
      rw [hrun]
      exact fitAux_le_stop a 30 0 (b + 4) (by omega) (by omega) hstop4

/-- Witness for C2: the spec's scenario halts after 5 epochs (3
non-improving epochs after the peak at epoch 2), exposing a concrete
non-improving triple, and the best-epoch bound holds at the peak. -/
theorem early_stopping_patience_witness :
    epochsRun accsA = 5 ∧
    (∃ k, k + 2 ≤ 28 ∧ nonImp accsA k ∧ nonImp accsA (k + 1) ∧ nonImp accsA (k + 2)) ∧
    (1 < epochsRun accsA ∧ epochsRun accsA ≤ 1 + 4) :=
  ⟨by decide,
   (early_stopping_patience accsA).1.mp (by decide),
   by decide,
   (early_stopping_patience accsA).2.1 1 (by decide) (by decide) (by decide)⟩

/-- Counterexample for C2 as stated: on a run whose accuracies rise up to
epoch 27 and stay flat afterwards, the final three epochs of the
30-epoch budget all fail to improve — three consecutive non-improving
epochs pass — yet the loop runs all 30 epochs, so it does not halt
before the 30-epoch limit and the claimed equivalence is false. -/
theorem early_stopping_iff_counterexample :
    ¬ (epochsRun accsB < 30 ↔
        ∃ k, k + 2 < epochsRun accsB ∧
          nonImp accsB k ∧ nonImp accsB (k + 1) ∧ nonImp accsB (k + 2)) := by
  intro h
  have h1 : epochsRun accsB = 30 := by decide
  have h2 : epochsRun accsB < 30 :=
    h.mpr ⟨27, by decide, by unfold nonImp; decide, by unfold nonImp; decide,
      by unfold nonImp; decide⟩
  omega
